import Mathlib

/-
  Verification development for the gemini-balance-pro observability layer.

  Shallow embedding of:
  - app/middleware/api_monitor_middleware.py  (truncate_body, redact_api_key,
    extract_model_from_body, extract_content_preview, extract_tokens_from_response,
    extract_model_from_path, APIMonitorMiddleware.should_monitor / dispatch / _save_log)
  - app/service/ai_log/ai_log_service.py      (delete_ai_log_by_id, delete_ai_logs_by_ids,
    get_ai_log_details)
  - app/router/ai_log_routes.py               (delete_ai_log_api)

  Modelling conventions:
  - Python `str` is modelled as `List Char`; JSON object keys as `String`.
  - A parsed JSON document is a `JValue`; Python `None` is identified with JSON
    null (`JValue.null`), matching `json.loads` which maps null to None.
  - A request/response body is represented by its parse result
    `Option JValue` (`none` = not valid JSON, so `json.loads` raises).
  - Python exceptions inside a `try`/`except` region are modelled with
    `Except Unit`; the surrounding handler turns `Except.error` into the
    Python `except:` fallback value.
  - Byte strings are `List Nat`; UTF-8 decoding (`bytes.decode`, with
    errors replaced) is an oracle parameter `decode`, and `json.loads` is an
    oracle parameter `parse`, since neither function's internals are part of
    the repository.
-/

/-! ## JSON values (results of `json.loads`) -/

/-- A parsed JSON document.  Python `None` is `JValue.null`. -/
inductive JValue where
  | null : JValue
  | bool (b : Bool) : JValue
  | num (n : Int) : JValue
  | str (s : String) : JValue
  | arr (xs : List JValue) : JValue
  | obj (kvs : List (String × JValue)) : JValue

/-- First-match association-list lookup; a parsed Python dict has unique keys. -/
def jlookup : List (String × JValue) → String → Option JValue
  | [], _ => none
  | (k, v) :: rest, key => if k = key then some v else jlookup rest key

/-- Python `d.get(key)`: the stored value, or None (= JSON null) when absent. -/
def dictGet (kvs : List (String × JValue)) (key : String) : JValue :=
  (jlookup kvs key).getD JValue.null

/-- Python `d.get(key, default)`: the stored value (even if it is None) when the
key is present, else the default. -/
def dictGetD (kvs : List (String × JValue)) (key : String) (d : JValue) : JValue :=
  (jlookup kvs key).getD d

/-- Python truthiness of a JSON value (`if x:`). -/
def jtruthy : JValue → Bool
  | JValue.null => false
  | JValue.bool b => b
  | JValue.num n => n != 0
  | JValue.str s => !s.data.isEmpty
  | JValue.arr xs => !xs.isEmpty
  | JValue.obj kvs => !kvs.isEmpty

/-- Python `for x in v`: iterating a list yields its items; iterating a string
yields its characters (as one-character strings); iterating a dict yields its
keys; anything else raises TypeError. -/
def pyIter : JValue → Except Unit (List JValue)
  | JValue.arr xs => Except.ok xs
  | JValue.str s => Except.ok (s.data.map (fun c => JValue.str (String.mk [c])))
  | JValue.obj kvs => Except.ok (kvs.map (fun kv => JValue.str kv.1))
  | _ => Except.error ()

/-! ## Generic string helpers -/

/-- Python `s.startswith(pat)` on character lists. -/
def startswith : List Char → List Char → Bool
  | [], _ => true
  | _ :: _, [] => false
  | a :: pa, b :: s => a == b && startswith pa s

/-- Python `k.lower()` (ASCII header keys). -/
def lowerKey (k : List Char) : List Char := k.map Char.toLower

/-! ## `truncate_body` (api_monitor_middleware.py lines 20-27) -/

/-- `MAX_BODY_LENGTH = 50000`. -/
def MAX_BODY_LENGTH : Nat := 50000

/-- The f-string tail appended on truncation:
`f"\n... (截断，共 {len(data)} 字符)"`. -/
def trunc_marker (n : Nat) : List Char :=
  "\n... (截断，共 ".data ++ Nat.toDigits 10 n ++ " 字符)".data

/-- `truncate_body(data, max_length=MAX_BODY_LENGTH)`. -/
def truncate_body (data : List Char) (max_length : Nat := MAX_BODY_LENGTH) : List Char :=
  if data.length > max_length then data.take max_length ++ trunc_marker data.length
  else data

/-! ## `redact_api_key` (api_monitor_middleware.py lines 30-36) -/

/-- The literal `"..."` infill. -/
def dots3 : List Char := ['.', '.', '.']

/-- The literal `"***"` mask. -/
def mask3 : List Char := ['*', '*', '*']

/-- `redact_api_key(key)`: `None`/empty → `None`; length ≤ 6 → `"***"`;
7..12 → `key[:3] + "..." + key[-3:]`; > 12 → `key[:6] + "..." + key[-6:]`. -/
def redact_api_key : Option (List Char) → Option (List Char)
  | none => none
  | some key =>
    if key.isEmpty then none
    else if key.length ≤ 12 then
      if key.length > 6 then some (key.take 3 ++ dots3 ++ key.drop (key.length - 3))
      else some mask3
    else some (key.take 6 ++ dots3 ++ key.drop (key.length - 6))

/-! ## Model-name extraction (api_monitor_middleware.py lines 39-45, 113-119) -/

/-- `extract_model_from_body(body_str)`: `json.loads` then `data.get("model")`;
any exception (parse failure, `.get` on a non-dict) yields None. -/
def extract_model_from_body : Option JValue → JValue
  | some (JValue.obj kvs) => dictGet kvs "model"
  | _ => JValue.null

/-- The literal pattern `/models/` of the regex `r'/models/([^/:]+)'`. -/
def modelsPat : List Char := "/models/".data

/-- The character class `[^/:]`. -/
def pathCharOk (c : Char) : Bool := c != '/' && c != ':'

/-- One attempt of the regex engine at a fixed start position: the literal
`/models/` followed by a non-empty greedy run of `[^/:]` characters. -/
def matchModelsAt (l : List Char) : Option (List Char) :=
  if startswith modelsPat l then
    let name := (l.drop 8).takeWhile pathCharOk
    if name.isEmpty then none else some name
  else none

/-- `extract_model_from_path(path)`: `re.search(r'/models/([^/:]+)', path)` —
the leftmost start position at which the whole pattern matches wins. -/
def extract_model_from_path : List Char → Option (List Char)
  | [] => none
  | c :: cs =>
    match matchModelsAt (c :: cs) with
    | some name => some name
    | none => extract_model_from_path cs

/-- Model-name resolution in `dispatch` (lines 178-189): the body's top-level
`model` field when truthy, otherwise the path pattern. -/
def resolve_model (body? : Option JValue) (path : List Char) : JValue :=
  let m := extract_model_from_body body?
  if jtruthy m then m
  else
    match extract_model_from_path path with
    | some name => JValue.str (String.mk name)
    | none => JValue.null

/-! ## `extract_tokens_from_response` (api_monitor_middleware.py lines 89-110) -/

/-- Second probe of `extract_tokens_from_response`: `usage_metadata =
data.get("usageMetadata", {})`; when truthy, all three counters are re-read
from it (a truthy non-dict raises AttributeError, caught by the bare `except`,
which keeps the values accumulated so far). -/
def tokensFromUsageMetadata (kvs : List (String × JValue)) (p c t : JValue) :
    JValue × JValue × JValue :=
  let um := dictGetD kvs "usageMetadata" (JValue.obj [])
  if jtruthy um then
    match um with
    | JValue.obj mkvs =>
      (dictGet mkvs "promptTokenCount", dictGet mkvs "candidatesTokenCount",
        dictGet mkvs "totalTokenCount")
    | _ => (p, c, t)
  else (p, c, t)

/-- `extract_tokens_from_response(response_str)` on the parse result of the
response body: probes the OpenAI-style `usage` object, then the Gemini-style
`usageMetadata` object; each counter defaults to None. -/
def extract_tokens_from_response : Option JValue → JValue × JValue × JValue
  | some (JValue.obj kvs) =>
    let usage := dictGetD kvs "usage" (JValue.obj [])
    if jtruthy usage then
      match usage with
      | JValue.obj ukvs =>
        tokensFromUsageMetadata kvs (dictGet ukvs "prompt_tokens")
          (dictGet ukvs "completion_tokens") (dictGet ukvs "total_tokens")
      | _ => (JValue.null, JValue.null, JValue.null)
    else tokensFromUsageMetadata kvs JValue.null JValue.null JValue.null
  | _ => (JValue.null, JValue.null, JValue.null)

/-! ## `extract_content_preview` (api_monitor_middleware.py lines 48-86) -/

/-- Python whitespace for `str.split()` (ASCII subset). -/
def isPyWs (c : Char) : Bool :=
  c == ' ' || c == '\t' || c == '\n' || c == '\r' || c == '\x0b' || c == '\x0c'

/-- Accumulator pass behind `pyWords`. -/
def pyWordsAux : List Char → List Char → List (List Char)
  | [], acc => if acc.isEmpty then [] else [acc.reverse]
  | c :: cs, acc =>
    if isPyWs c then
      if acc.isEmpty then pyWordsAux cs [] else acc.reverse :: pyWordsAux cs []
    else pyWordsAux cs (c :: acc)

/-- Python `s.split()`: maximal runs of non-whitespace. -/
def pyWords (s : List Char) : List (List Char) := pyWordsAux s []

/-- `" ".join(s.split())`: collapse whitespace runs to single spaces. -/
def normalize_ws (s : List Char) : List Char := List.intercalate [' '] (pyWords s)

/-- Normalize then truncate to the 12-character preview
(`content[:max_length] if len(content) > max_length else content`). -/
def previewText (s : String) : List Char := (normalize_ws s.data).take 12

/-- Inner loop over a multimodal `content` list: the first dict item whose
`type` equals `"text"` yields its (whitespace-normalized, truncated) `text`
value; a non-string `text` raises at `.split()`. -/
def previewFromItems : List JValue → Except Unit (Option (List Char))
  | [] => Except.ok none
  | JValue.obj ik :: its =>
    match jlookup ik "type" with
    | some (JValue.str t) =>
      if t = "text" then
        match dictGetD ik "text" (JValue.str "") with
        | JValue.str s => Except.ok (some (previewText s))
        | _ => Except.error ()
      else previewFromItems its
    | _ => previewFromItems its
  | _ :: its => previewFromItems its

/-- OpenAI-style loop over `messages`: each message must be a dict
(otherwise `.get` raises); a truthy string `content` is returned directly, a
list `content` is scanned by `previewFromItems`. -/
def previewFromMessages : List JValue → Except Unit (Option (List Char))
  | [] => Except.ok none
  | JValue.obj mk :: ms =>
    let content := dictGet mk "content"
    if jtruthy content then
      match content with
      | JValue.str s => Except.ok (some (previewText s))
      | JValue.arr items =>
        match previewFromItems items with
        | Except.error e => Except.error e
        | Except.ok (some r) => Except.ok (some r)
        | Except.ok none => previewFromMessages ms
      | _ => previewFromMessages ms
    else previewFromMessages ms
  | _ :: _ => Except.error ()

/-- Loop over one Gemini `contents` entry's `parts`: a dict part with a `text`
key yields that value (a non-string raises at `.split()`). -/
def previewFromParts : List JValue → Except Unit (Option (List Char))
  | [] => Except.ok none
  | JValue.obj pk :: ps =>
    match jlookup pk "text" with
    | some (JValue.str s) => Except.ok (some (previewText s))
    | some _ => Except.error ()
    | none => previewFromParts ps
  | _ :: ps => previewFromParts ps

/-- Gemini-style loop over `contents`: each entry must be a dict (`.get`
raises otherwise); its `parts` (default `[]`) is iterated for text parts. -/
def previewFromContents : List JValue → Except Unit (Option (List Char))
  | [] => Except.ok none
  | JValue.obj ck :: cs =>
    match pyIter (dictGetD ck "parts" (JValue.arr [])) with
    | Except.error e => Except.error e
    | Except.ok parts =>
      match previewFromParts parts with
      | Except.error e => Except.error e
      | Except.ok (some r) => Except.ok (some r)
      | Except.ok none => previewFromContents cs
  | _ :: _ => Except.error ()

/-- Body of `extract_content_preview`'s `try` block, on a parsed dict:
`messages`, then `contents`, then `prompt`. -/
def ecpCore (kvs : List (String × JValue)) : Except Unit (Option (List Char)) :=
  let stepMessages : Except Unit (Option (List Char)) :=
    let messages := dictGetD kvs "messages" (JValue.arr [])
    if jtruthy messages then
      match pyIter messages with
      | Except.error e => Except.error e
      | Except.ok ms => previewFromMessages ms
    else Except.ok none
  match stepMessages with
  | Except.error e => Except.error e
  | Except.ok (some r) => Except.ok (some r)
  | Except.ok none =>
    let stepContents : Except Unit (Option (List Char)) :=
      let contents := dictGetD kvs "contents" (JValue.arr [])
      if jtruthy contents then
        match pyIter contents with
        | Except.error e => Except.error e
        | Except.ok cs => previewFromContents cs
      else Except.ok none
    match stepContents with
    | Except.error e => Except.error e
    | Except.ok (some r) => Except.ok (some r)
    | Except.ok none =>
      let prompt := dictGet kvs "prompt"
      if jtruthy prompt then
        match prompt with
        | JValue.str s => Except.ok (some (previewText s))
        | _ => Except.error ()
      else Except.ok none

/-- `extract_content_preview(body_str)`: any exception inside the `try`
block (including a non-dict document) yields None. -/
def extract_content_preview : Option JValue → Option (List Char)
  | some (JValue.obj kvs) =>
    match ecpCore kvs with
    | Except.ok r => r
    | Except.error _ => none
  | _ => none

/-! ## `APIMonitorMiddleware` (api_monitor_middleware.py lines 122-286) -/

/-- `MONITOR_PATHS`. -/
def MONITOR_PATHS : List (List Char) :=
  ["/v1/", "/gemini/", "/openai/", "/hf/", "/vertex-express/"].map String.data

/-- `EXCLUDE_PATHS`. -/
def EXCLUDE_PATHS : List (List Char) :=
  ["/static/", "/health", "/favicon.ico"].map String.data

/-- `should_monitor(path)`: exclusion wins over inclusion. -/
def should_monitor (path : List Char) : Bool :=
  if EXCLUDE_PATHS.any (fun e => startswith e path) then false
  else MONITOR_PATHS.any (fun m => startswith m path)

/-- `important_headers`. -/
def important_headers : List (List Char) :=
  ["content-type", "authorization", "user-agent", "x-api-key"].map String.data

/-- The lower-case key `authorization`. -/
def authKey : List Char := "authorization".data

/-- The lower-case key `x-api-key`. -/
def xapiKey : List Char := "x-api-key".data

/-- The literal credential marker `"Bearer "` (7 characters). -/
def bearerPat : List Char := "Bearer ".data

/-- Python dict assignment `d[k] = v`: replace in place when the key exists
(keys of `d` are unique by construction), else append. -/
def dictInsert (d : List (List Char × List Char)) (k v : List Char) :
    List (List Char × List Char) :=
  if d.any (fun p => p.1 == k) then d.map (fun p => if p.1 == k then (k, v) else p)
  else d ++ [(k, v)]

/-- Starlette `Headers.__getitem__`: the FIRST value stored under a header
name (`raw` order), or a KeyError — here `none` — when absent. -/
def headersLookupFirst (l : List (List Char × List Char)) (k : List Char) :
    Option (List Char) :=
  (l.find? (fun p => p.1 == k)).map Prod.snd

/-- CPython `dict(mapping)` applied to a starlette `Headers` object
(`dict(response.headers)`): it iterates `keys()` — which lists every raw
header name, duplicates included — and assigns `d[k] = mapping[k]`, where
`Headers.__getitem__` returns the FIRST value for the name.  A repeated name
therefore re-assigns the same first value: duplicates after the first
occurrence are dropped. -/
def dictOfHeaders (l : List (List Char × List Char)) : List (List Char × List Char) :=
  l.foldl (fun d kv =>
    match headersLookupFirst l kv.1 with
    | some v => dictInsert d kv.1 v
    | none => d) []

/-- The credential update performed for a header in the
`authorization`/`x-api-key` branch of the header loop (lines 163-166). -/
def setsApiKey (api_key : Option (List Char)) (k v : List Char) : Option (List Char) :=
  if lowerKey k = authKey ∧ startswith bearerPat v = true then some (v.drop 7)
  else if lowerKey k = xapiKey then some v
  else api_key

/-- One iteration of the header loop (lines 159-169), acting on the state
`(headers_dict, api_key)`. -/
def processHeader (st : List (List Char × List Char) × Option (List Char))
    (kv : List Char × List Char) : List (List Char × List Char) × Option (List Char) :=
  let kl := lowerKey kv.1
  if kl ∈ important_headers then
    if kl = authKey ∨ kl = xapiKey then
      (dictInsert st.1 kv.1 ((redact_api_key (some kv.2)).getD kv.2),
        setsApiKey st.2 kv.1 kv.2)
    else (dictInsert st.1 kv.1 kv.2, st.2)
  else st

/-- The whole header loop: produces the redacted `headers_dict` and the raw
extracted credential `api_key`. -/
def process_headers (headers : List (List Char × List Char)) :
    List (List Char × List Char) × Option (List Char) :=
  headers.foldl processHeader ([], none)

/-- The structured unit handed to `ai_log_service.add_ai_log`
(TelemetryRecord of the spec).  `request_headers` is kept as the dict that
`json.dumps` would serialize. -/
structure TelemetryRecord where
  method : List Char
  path : List Char
  request_headers : List (List Char × List Char)
  request_body : List Char
  status_code : Nat
  response_body : List Char
  latency_ms : Nat
  model_name : JValue
  api_key : Option (List Char)
  prompt_tokens : JValue
  completion_tokens : JValue
  total_tokens : JValue
  content_preview : Option (List Char)

/-- The inbound request as seen by `dispatch`: method, URL path, raw header
pairs in arrival order, and the (already decoded) request body text. -/
structure RequestInfo where
  method : List Char
  path : List Char
  headers : List (List Char × List Char)
  body_chars : List Char

/-- The wrapped handler's response: status, raw header pairs, the byte chunks
produced by `response.body_iterator`, and `media_type`. -/
structure HandlerResponse where
  status_code : Nat
  headers : List (List Char × List Char)
  chunks : List (List Nat)
  media_type : Option (List Char)

/-- The response the middleware hands back to the original caller
(the `Response(...)` constructed at lines 241-246, or the untouched handler
response on unmonitored paths). -/
structure ClientResponse where
  status_code : Nat
  headers : List (List Char × List Char)
  body : List Nat
  media_type : Option (List Char)

/-- The TelemetryRecord built by the monitored branch of `dispatch`
(lines 150-238).  `parse` is the `json.loads` oracle, `decode` the UTF-8
decoding oracle, `latency` the measured wall-clock duration. -/
def build_record (parse : List Char → Option JValue) (decode : List Nat → List Char)
    (req : RequestInfo) (latency : Nat) (resp : HandlerResponse) : TelemetryRecord :=
  let hs := process_headers req.headers
  let request_body_str := req.body_chars
  let body_json := if request_body_str.isEmpty then none else parse request_body_str
  let model_name := resolve_model body_json req.path
  let response_body := resp.chunks.flatten
  let response_body_str := if response_body.isEmpty then [] else decode response_body
  let tok := extract_tokens_from_response (parse response_body_str)
  { method := req.method
    path := req.path
    request_headers := hs.1
    request_body := truncate_body request_body_str
    status_code := resp.status_code
    response_body := truncate_body response_body_str
    latency_ms := latency
    model_name := model_name
    api_key := redact_api_key hs.2
    prompt_tokens := tok.1
    completion_tokens := tok.2.1
    total_tokens := tok.2.2
    content_preview := extract_content_preview body_json }

/-- `_save_log` (lines 248-285): persistence is attempted and any exception is
caught and logged; the returned list is the log lines emitted. -/
def save_log (persist : TelemetryRecord → Except (List Char) Unit)
    (rec : TelemetryRecord) : List (List Char) :=
  match persist rec with
  | Except.ok _ => []
  | Except.error e => ["Failed to save AI log to database: ".data ++ e]

/-- `dispatch` (lines 143-246): unmonitored paths pass through untouched;
monitored paths buffer the response body, build and fire-and-forget the
telemetry record, and return a reconstructed `Response` whose headers are
`dict(response.headers)`.  Result: the caller-visible response and the error
log lines of the persistence task. -/
def dispatch (parse : List Char → Option JValue) (decode : List Nat → List Char)
    (persist : TelemetryRecord → Except (List Char) Unit)
    (req : RequestInfo) (latency : Nat) (resp : HandlerResponse) :
    ClientResponse × List (List Char) :=
  if should_monitor req.path then
    let rec0 := build_record parse decode req latency resp
    let logs := save_log persist rec0
    ({ status_code := resp.status_code
       headers := dictOfHeaders resp.headers
       body := resp.chunks.flatten
       media_type := resp.media_type }, logs)
  else
    ({ status_code := resp.status_code
       headers := resp.headers
       body := resp.chunks.flatten
       media_type := resp.media_type }, [])

/-! ## `ai_log_service` (ai_log_service.py) and `ai_log_routes` (delete route) -/

/-- The persistent store: rows keyed by the store-assigned id. -/
abbrev AILogDB := List (Nat × TelemetryRecord)

/-- `delete_ai_log_by_id(log_id)` (service lines 205-221): issues
`DELETE ... WHERE id = log_id` and returns True without inspecting the number
of affected rows; False only when the store operation raises (`dbOk = false`). -/
def delete_ai_log_by_id (dbOk : Bool) (db : AILogDB) (log_id : Nat) : AILogDB × Bool :=
  if dbOk then (db.filter (fun r => r.1 ≠ log_id), true) else (db, false)

/-- `delete_ai_logs_by_ids(log_ids)` (service lines 224-240): one
`DELETE ... WHERE id IN log_ids`, then return `len(log_ids)`. -/
def delete_ai_logs_by_ids (db : AILogDB) (log_ids : List Nat) : AILogDB × Nat :=
  (db.filter (fun r => r.1 ∉ log_ids), log_ids.length)

/-- `get_ai_log_details(log_id)` (service lines 186-202): first row with the
given id, or not-found. -/
def get_ai_log_details (db : AILogDB) (log_id : Nat) : Option TelemetryRecord :=
  (db.find? (fun r => r.1 == log_id)).map Prod.snd

/-- `delete_ai_log_api` (routes lines 184-208): 401 without a valid session,
404 when the service reports failure, else 204.  Returns the store after the
call and the HTTP status. -/
def delete_ai_log_api (authed : Bool) (dbOk : Bool) (db : AILogDB) (log_id : Nat) :
    AILogDB × Nat :=
  if authed then
    let r := delete_ai_log_by_id dbOk db log_id
    if r.2 then (r.1, 204) else (r.1, 404)
  else (db, 401)

/-- Negation of the dot character test, for counting non-dot characters. -/
def notDot (c : Char) : Bool := c != '.'

/-- Provenance predicate: the given counter key is present with a non-None
value inside a truthy dict stored under `shapeKey` of the response object. -/
def tokenFound (body? : Option JValue) (shapeKey fieldKey : String) : Prop :=
  ∃ kvs okvs, body? = some (JValue.obj kvs) ∧
    dictGetD kvs shapeKey (JValue.obj []) = JValue.obj okvs ∧ okvs ≠ [] ∧
    dictGet okvs fieldKey ≠ JValue.null

/-- A throwaway stored row used to instantiate store-level theorems. -/
def sampleRecord : TelemetryRecord :=
  { method := [], path := [], request_headers := [], request_body := []
    status_code := 200, response_body := [], latency_ms := 0
    model_name := JValue.null, api_key := none, prompt_tokens := JValue.null
    completion_tokens := JValue.null, total_tokens := JValue.null
    content_preview := none }

/-! # Theorems -/

/-! ## Generic helper lemmas -/

theorem startswith_append (l m : List Char) : startswith l (l ++ m) = true := by
  induction l with
  | nil => rfl
  | cons a t ih => simp [startswith, ih]

theorem takeWhile_append_all {p : Char → Bool} (xs ys : List Char)
    (h : ∀ x ∈ xs, p x = true) :
    List.takeWhile p (xs ++ ys) = xs ++ List.takeWhile p ys := by
  induction xs with
  | nil => simp
  | cons a t ih =>
    have ha : p a = true := h a (by simp)
    simp only [List.cons_append, List.takeWhile_cons, ha, if_true]
    rw [ih (fun x hx => h x (by simp [hx]))]

theorem takeWhile_nil_of_stop {p : Char → Bool} (rest : List Char)
    (h : rest = [] ∨ ∃ c rs, rest = c :: rs ∧ p c = false) :
    List.takeWhile p rest = [] := by
  rcases h with rfl | ⟨c, rs, rfl, hc⟩
  · rfl
  · simp [List.takeWhile_cons, hc]

/-! ## C3: body truncation -/

/-- C3 counterexample: the claim says every stored body has length at most
50,000 characters, but on a 50,001-character input `truncate_body` returns the
50,000-character prefix PLUS the truncation marker, which is longer than
50,000 characters. -/
theorem C3_counterexample :
    ¬ ((truncate_body (List.replicate 50001 'a')).length ≤ 50000) := by
  have hM : MAX_BODY_LENGTH = 50000 := rfl
  have hlen : (List.replicate 50001 'a').length = 50001 := by
    rw [List.length_replicate]
  have hm : 0 < (trunc_marker 50001).length := by decide
  have h2 : (truncate_body (List.replicate 50001 'a')).length
      = 50000 + (trunc_marker 50001).length := by
    unfold truncate_body
    rw [hlen, hM, if_pos (by omega), List.length_append, List.length_take, hlen,
      Nat.min_eq_left (by omega)]
  omega

/-- C3 (amended): the stored body is the input itself when it fits in
`MAX_BODY_LENGTH`; otherwise it is the `MAX_BODY_LENGTH`-character prefix
followed by the trailing marker stating the exact original character count,
so its length is at most `MAX_BODY_LENGTH` plus the marker length. -/
theorem C3_amended (s : List Char) :
    (s.length ≤ MAX_BODY_LENGTH → truncate_body s = s) ∧
    (MAX_BODY_LENGTH < s.length →
      truncate_body s = s.take MAX_BODY_LENGTH ++ trunc_marker s.length) ∧
    (truncate_body s).length ≤ MAX_BODY_LENGTH + (trunc_marker s.length).length := by
  refine ⟨fun h => ?_, fun h => ?_, ?_⟩
  · unfold truncate_body
    rw [if_neg (by omega)]
  · unfold truncate_body
    rw [if_pos h]
  · unfold truncate_body
    by_cases h : s.length > MAX_BODY_LENGTH
    · rw [if_pos h, List.length_append, List.length_take,
        Nat.min_eq_left (Nat.le_of_lt h)]
    · rw [if_neg h]
      omega

/-- C3 witness: the amended theorem applied to a short and to an overlong
concrete input. -/
theorem C3_amended_witness :
    truncate_body "ab".data = "ab".data ∧
    truncate_body (List.replicate 50001 'a')
      = (List.replicate 50001 'a').take MAX_BODY_LENGTH
        ++ trunc_marker (List.replicate 50001 'a').length :=
  ⟨(C3_amended "ab".data).1 (by decide),
   (C3_amended (List.replicate 50001 'a')).2.1
     (by rw [List.length_replicate]; decide)⟩

/-! ## C4: the redaction function -/

/-- C4: `redact_api_key` is a pure total function with exactly the claimed
case split: None/empty input gives None; length 1..6 gives the constant
`***`; length 7..12 gives first 3 + `...` + last 3; length above 12 gives
first 6 + `...` + last 6. -/
theorem C4_redaction (s : List Char) :
    redact_api_key none = none ∧
    redact_api_key (some []) = none ∧
    (0 < s.length → s.length ≤ 6 → redact_api_key (some s) = some mask3) ∧
    (6 < s.length → s.length ≤ 12 →
      redact_api_key (some s) = some (s.take 3 ++ dots3 ++ s.drop (s.length - 3))) ∧
    (12 < s.length →
      redact_api_key (some s) = some (s.take 6 ++ dots3 ++ s.drop (s.length - 6))) := by
  have hne : 0 < s.length → s.isEmpty = false := by
    intro h
    cases s with
    | nil => simp at h
    | cons a t => rfl
  refine ⟨rfl, rfl, fun h1 h2 => ?_, fun h1 h2 => ?_, fun h1 => ?_⟩
  · simp only [redact_api_key]
    rw [hne h1, if_neg (by simp), if_pos (by omega), if_neg (by omega)]
  · simp only [redact_api_key]
    rw [hne (by omega), if_neg (by simp), if_pos (by omega), if_pos (by omega)]
  · simp only [redact_api_key]
    rw [hne (by omega), if_neg (by simp), if_neg (by omega)]

/-- C4 witness: the three length regimes at concrete keys. -/
theorem C4_redaction_witness :
    redact_api_key (some "abcd".data) = some mask3 ∧
    redact_api_key (some "abcdefgh".data)
      = some ("abcdefgh".data.take 3 ++ dots3
          ++ "abcdefgh".data.drop ("abcdefgh".data.length - 3)) ∧
    redact_api_key (some "sk-abcdefghij".data)
      = some ("sk-abcdefghij".data.take 6 ++ dots3
          ++ "sk-abcdefghij".data.drop ("sk-abcdefghij".data.length - 6)) :=
  ⟨(C4_redaction "abcd".data).2.2.1 (by decide) (by decide),
   (C4_redaction "abcdefgh".data).2.2.2.1 (by decide) (by decide),
   (C4_redaction "sk-abcdefghij".data).2.2.2.2 (by decide)⟩

/-! ## C5: redaction never contains the input -/

/-- C5 counterexample: for the 7-character secret `.......` (all dots), the
redacted output is 9 dots, and the secret IS a substring of it — the claim
fails as stated. -/
theorem C5_counterexample :
    6 < (List.replicate 7 '.').length ∧
    redact_api_key (some (List.replicate 7 '.')) = some (List.replicate 9 '.') ∧
    (List.replicate 7 '.') <:+: (List.replicate 9 '.') := by
  refine ⟨by decide, by decide, ⟨[], List.replicate 2 '.', by decide⟩⟩

/-- C5 (amended): for every secret longer than 6 characters that contains no
`.` character, the redacted output does not contain the secret as a
substring (any infix of the output of that length would include one of the
literal dots). -/
theorem C5_amended (s out : List Char) (h6 : 6 < s.length) (hdot : '.' ∉ s)
    (hred : redact_api_key (some s) = some out) : ¬ s <:+: out := by
  intro hinf
  have hs_count : s.countP notDot = s.length := by
    rw [List.countP_eq_length]
    intro a ha
    have : a ≠ '.' := fun h => hdot (h ▸ ha)
    simpa [notDot] using this
  have hsub : s.countP notDot ≤ out.countP notDot := hinf.sublist.countP_le notDot
  have hne : s.isEmpty = false := by
    cases s with
    | nil => simp at h6
    | cons a t => rfl
  simp only [redact_api_key] at hred
  rw [hne, if_neg (by simp)] at hred
  by_cases h12 : s.length ≤ 12
  · rw [if_pos h12, if_pos h6] at hred
    have hout : out = s.take 3 ++ dots3 ++ s.drop (s.length - 3) :=
      (Option.some_injective _ hred).symm
    have hcount : out.countP notDot ≤ 6 := by
      rw [hout, List.countP_append, List.countP_append]
      have c1 : (s.take 3).countP notDot ≤ 3 :=
        le_trans (List.countP_le_length _) (by simp)
      have c2 : dots3.countP notDot = 0 := by decide
      have c3 : (s.drop (s.length - 3)).countP notDot ≤ 3 :=
        le_trans (List.countP_le_length _) (by simp; omega)
      omega
    omega
  · rw [if_neg h12] at hred
    have hout : out = s.take 6 ++ dots3 ++ s.drop (s.length - 6) :=
      (Option.some_injective _ hred).symm
    have hcount : out.countP notDot ≤ 12 := by
      rw [hout, List.countP_append, List.countP_append]
      have c1 : (s.take 6).countP notDot ≤ 6 :=
        le_trans (List.countP_le_length _) (by simp)
      have c2 : dots3.countP notDot = 0 := by decide
      have c3 : (s.drop (s.length - 6)).countP notDot ≤ 6 :=
        le_trans (List.countP_le_length _) (by simp; omega)
      omega
    omega

/-- C5 witness: a concrete dot-free 7-character secret is not a substring of
its redaction. -/
theorem C5_amended_witness : ¬ ("abcdefg".data <:+: "abc...efg".data) :=
  C5_amended "abcdefg".data "abc...efg".data (by decide) (by decide) (by decide)

/-! ## C6: model extraction -/

theorem extract_step (l : List Char) (hl : l ≠ []) :
    extract_model_from_path l
      = match matchModelsAt l with
        | some name => some name
        | none => extract_model_from_path l.tail := by
  cases l with
  | nil => exact absurd rfl hl
  | cons c cs => rfl

theorem matchModelsAt_append (name rest : List Char) (hname : name ≠ [])
    (hok : ∀ c ∈ name, pathCharOk c = true)
    (hstop : rest = [] ∨ ∃ c rs, rest = c :: rs ∧ pathCharOk c = false) :
    matchModelsAt (modelsPat ++ (name ++ rest)) = some name := by
  unfold matchModelsAt
  rw [startswith_append, if_pos rfl]
  have hdrop : (modelsPat ++ (name ++ rest)).drop 8 = name ++ rest := by
    have h8 : modelsPat.length = 8 := rfl
    rw [← h8, List.drop_left]
  rw [hdrop, takeWhile_append_all _ _ hok, takeWhile_nil_of_stop _ hstop,
    List.append_nil]
  have hemp : name.isEmpty = false := by
    cases name with
    | nil => exact absurd rfl hname
    | cons a t => rfl
  simp [hemp]

theorem extract_model_from_path_spec (pre name rest : List Char) (hname : name ≠ [])
    (hok : ∀ c ∈ name, pathCharOk c = true)
    (hstop : rest = [] ∨ ∃ c rs, rest = c :: rs ∧ pathCharOk c = false)
    (hpre : ∀ i, i < pre.length →
      matchModelsAt ((pre ++ (modelsPat ++ (name ++ rest))).drop i) = none) :
    extract_model_from_path (pre ++ (modelsPat ++ (name ++ rest))) = some name := by
  induction pre with
  | nil =>
    rw [List.nil_append, extract_step _ (by simp [modelsPat]),
      matchModelsAt_append name rest hname hok hstop]
  | cons a t ih =>
    have h0 := hpre 0 (by simp)
    rw [List.drop_zero, List.cons_append] at h0
    rw [List.cons_append, extract_step _ (by simp), h0, List.tail_cons]
    exact ih (fun i hi => by
      have := hpre (i + 1) (by simpa using Nat.succ_lt_succ hi)
      rwa [List.cons_append, List.drop_succ_cons] at this)

/-- C6 counterexample: a body whose top-level `model` field is the (empty)
string is falsy in Python, so the code falls back to the path pattern instead
of returning the body's model — the claim fails for `X = ""`. -/
theorem C6_counterexample :
    resolve_model (some (JValue.obj [("model", JValue.str "")]))
        "/gemini/v1beta/models/gemini-flash:generateContent".data
      = JValue.str "gemini-flash" ∧
    JValue.str "gemini-flash" ≠ JValue.str "" := by
  constructor
  · rfl
  · intro h
    injection h with h2
    exact absurd h2 (by decide)

/-- C6 (amended): a NON-EMPTY top-level `model` string in the body wins over
the path; when the body yields no truthy model, the resolved name is the
leftmost path occurrence of `/models/<name>` with `<name>` the maximal
non-empty run of characters other than `/` and `:`; in particular the path
`/gemini/v1beta/models/gemini-flash:generateContent` resolves to
`gemini-flash`. -/
theorem C6_amended :
    (∀ (kvs : List (String × JValue)) (path : List Char) (X : String),
      jlookup kvs "model" = some (JValue.str X) → X ≠ "" →
      resolve_model (some (JValue.obj kvs)) path = JValue.str X) ∧
    (∀ (body? : Option JValue) (pre name rest : List Char),
      jtruthy (extract_model_from_body body?) = false →
      name ≠ [] → (∀ c ∈ name, pathCharOk c = true) →
      (rest = [] ∨ ∃ c rs, rest = c :: rs ∧ pathCharOk c = false) →
      (∀ i, i < pre.length →
        matchModelsAt ((pre ++ (modelsPat ++ (name ++ rest))).drop i) = none) →
      resolve_model body? (pre ++ (modelsPat ++ (name ++ rest)))
        = JValue.str (String.mk name)) ∧
    resolve_model none "/gemini/v1beta/models/gemini-flash:generateContent".data
      = JValue.str "gemini-flash" := by
  refine ⟨?_, ?_, rfl⟩
  · intro kvs path X hm hX
    have hbody : extract_model_from_body (some (JValue.obj kvs)) = JValue.str X := by
      simp [extract_model_from_body, dictGet, hm]
    have hdata : X.data.isEmpty = false := by
      cases X with
      | mk l =>
        cases l with
        | nil => exact absurd rfl hX
        | cons a t => rfl
    unfold resolve_model
    rw [hbody]
    simp [jtruthy, hdata]
  · intro body? pre name rest hfalsy hname hok hstop hpre
    simp only [resolve_model]
    rw [hfalsy]
    simp only [Bool.false_eq_true, if_false]
    rw [extract_model_from_path_spec pre name rest hname hok hstop hpre]

/-- C6 witness: a concrete non-empty body model wins; a concrete
Gemini-style path resolves through the fallback. -/
theorem C6_amended_witness :
    resolve_model (some (JValue.obj [("model", JValue.str "gpt-4o")])) "/v1/chat".data
      = JValue.str "gpt-4o" ∧
    resolve_model none
        ("/gemini/v1beta".data ++ (modelsPat ++ ("gemini-flash".data
          ++ ":generateContent".data)))
      = JValue.str (String.mk "gemini-flash".data) :=
  ⟨C6_amended.1 [("model", JValue.str "gpt-4o")] "/v1/chat".data "gpt-4o" rfl
     (by decide),
   C6_amended.2.1 none "/gemini/v1beta".data "gemini-flash".data
     ":generateContent".data rfl (by decide) (by decide)
     (Or.inr ⟨':', "generateContent".data, rfl, by decide⟩) (by decide)⟩

/-! ## C7 and C10: token usage extraction -/

theorem tokensFromUsageMetadata_obj (kvs mkvs : List (String × JValue))
    (p c t : JValue) (hm : dictGetD kvs "usageMetadata" (JValue.obj []) = JValue.obj mkvs)
    (hne : mkvs ≠ []) :
    tokensFromUsageMetadata kvs p c t
      = (dictGet mkvs "promptTokenCount", dictGet mkvs "candidatesTokenCount",
         dictGet mkvs "totalTokenCount") := by
  have hemp : mkvs.isEmpty = false := by
    cases mkvs with
    | nil => exact absurd rfl hne
    | cons a l => rfl
  simp only [tokensFromUsageMetadata]
  rw [hm]
  simp [jtruthy, hemp]

theorem extract_tokens_usageMetadata_wins (kvs ukvs mkvs : List (String × JValue))
    (hu : dictGetD kvs "usage" (JValue.obj []) = JValue.obj ukvs)
    (hm : dictGetD kvs "usageMetadata" (JValue.obj []) = JValue.obj mkvs)
    (hne : mkvs ≠ []) :
    extract_tokens_from_response (some (JValue.obj kvs))
      = (dictGet mkvs "promptTokenCount", dictGet mkvs "candidatesTokenCount",
         dictGet mkvs "totalTokenCount") := by
  simp only [extract_tokens_from_response]
  rw [hu]
  by_cases hue : ukvs = []
  · subst hue
    simp only [jtruthy, List.isEmpty_nil, Bool.not_true, Bool.false_eq_true, if_false]
    exact tokensFromUsageMetadata_obj kvs mkvs _ _ _ hm hne
  · have hemp : ukvs.isEmpty = false := by
      cases ukvs with
      | nil => exact absurd rfl hue
      | cons a l => rfl
    simp only [jtruthy, hemp, Bool.not_false, if_true]
    exact tokensFromUsageMetadata_obj kvs mkvs _ _ _ hm hne

theorem tokensFromUsageMetadata_cases (kvs : List (String × JValue)) (p c t : JValue) :
    tokensFromUsageMetadata kvs p c t = (p, c, t) ∨
    (∃ mkvs, dictGetD kvs "usageMetadata" (JValue.obj []) = JValue.obj mkvs ∧
      mkvs ≠ [] ∧
      tokensFromUsageMetadata kvs p c t
        = (dictGet mkvs "promptTokenCount", dictGet mkvs "candidatesTokenCount",
           dictGet mkvs "totalTokenCount")) := by
  rcases hm : dictGetD kvs "usageMetadata" (JValue.obj []) with _ | b | n | s | xs | mkvs
  case null => left; simp [tokensFromUsageMetadata, hm, jtruthy]
  case bool =>
    left
    cases b <;> simp [tokensFromUsageMetadata, hm, jtruthy]
  case num =>
    left
    simp only [tokensFromUsageMetadata, jtruthy]
    rw [hm]
    by_cases hn : (n != 0) = true <;> simp [jtruthy, hn]
  case str => left; simp [tokensFromUsageMetadata, hm, jtruthy]
  case arr =>
    left
    simp only [tokensFromUsageMetadata, jtruthy]
    rw [hm]
    by_cases hx : xs.isEmpty <;> simp [jtruthy, hx]
  case obj =>
    cases mkvs with
    | nil => left; simp [tokensFromUsageMetadata, hm, jtruthy]
    | cons a l =>
      right
      exact ⟨a :: l, rfl, by simp,
        tokensFromUsageMetadata_obj kvs (a :: l) p c t hm (by simp)⟩

theorem extract_tokens_cases (kvs : List (String × JValue)) :
    extract_tokens_from_response (some (JValue.obj kvs))
        = (JValue.null, JValue.null, JValue.null) ∨
    (∃ ukvs, dictGetD kvs "usage" (JValue.obj []) = JValue.obj ukvs ∧ ukvs ≠ [] ∧
      extract_tokens_from_response (some (JValue.obj kvs))
        = (dictGet ukvs "prompt_tokens", dictGet ukvs "completion_tokens",
           dictGet ukvs "total_tokens")) ∨
    (∃ mkvs, dictGetD kvs "usageMetadata" (JValue.obj []) = JValue.obj mkvs ∧
      mkvs ≠ [] ∧
      extract_tokens_from_response (some (JValue.obj kvs))
        = (dictGet mkvs "promptTokenCount", dictGet mkvs "candidatesTokenCount",
           dictGet mkvs "totalTokenCount")) := by
  rcases hu : dictGetD kvs "usage" (JValue.obj []) with _ | b | n | s | xs | ukvs
  case null =>
    simp only [extract_tokens_from_response, hu, jtruthy, Bool.false_eq_true, if_false]
    rcases tokensFromUsageMetadata_cases kvs JValue.null JValue.null JValue.null with
      h | ⟨mkvs, hm, hne, h⟩
    · exact Or.inl h
    · exact Or.inr (Or.inr ⟨mkvs, hm, hne, h⟩)
  case bool =>
    cases b with
    | false =>
      simp only [extract_tokens_from_response, hu, jtruthy, Bool.false_eq_true, if_false]
      rcases tokensFromUsageMetadata_cases kvs JValue.null JValue.null JValue.null with
        h | ⟨mkvs, hm, hne, h⟩
      · exact Or.inl h
      · exact Or.inr (Or.inr ⟨mkvs, hm, hne, h⟩)
    | true => left; simp [extract_tokens_from_response, hu, jtruthy]
  case num =>
    by_cases hn : (n != 0) = true
    · left; simp [extract_tokens_from_response, hu, jtruthy, hn]
    · simp only [extract_tokens_from_response, hu, jtruthy]
      rw [if_neg (by simpa using hn)]
      rcases tokensFromUsageMetadata_cases kvs JValue.null JValue.null JValue.null with
        h | ⟨mkvs, hm, hne, h⟩
      · exact Or.inl h
      · exact Or.inr (Or.inr ⟨mkvs, hm, hne, h⟩)
  case str =>
    by_cases hs : s.data.isEmpty
    · simp only [extract_tokens_from_response, hu, jtruthy]
      rw [if_neg (by simp [hs])]
      rcases tokensFromUsageMetadata_cases kvs JValue.null JValue.null JValue.null with
        h | ⟨mkvs, hm, hne, h⟩
      · exact Or.inl h
      · exact Or.inr (Or.inr ⟨mkvs, hm, hne, h⟩)
    · left; simp [extract_tokens_from_response, hu, jtruthy, hs]
  case arr =>
    by_cases hx : xs.isEmpty
    · simp only [extract_tokens_from_response, hu, jtruthy]
      rw [if_neg (by simp [hx])]
      rcases tokensFromUsageMetadata_cases kvs JValue.null JValue.null JValue.null with
        h | ⟨mkvs, hm, hne, h⟩
      · exact Or.inl h
      · exact Or.inr (Or.inr ⟨mkvs, hm, hne, h⟩)
    · left; simp [extract_tokens_from_response, hu, jtruthy, hx]
  case obj =>
    cases ukvs with
    | nil =>
      simp only [extract_tokens_from_response, hu, jtruthy, List.isEmpty_nil,
        Bool.not_true, Bool.false_eq_true, if_false]
      rcases tokensFromUsageMetadata_cases kvs JValue.null JValue.null JValue.null with
        h | ⟨mkvs, hm, hne, h⟩
      · exact Or.inl h
      · exact Or.inr (Or.inr ⟨mkvs, hm, hne, h⟩)
    | cons a l =>
      simp only [extract_tokens_from_response, hu, jtruthy, List.isEmpty_cons,
        Bool.not_false, if_true]
      rcases tokensFromUsageMetadata_cases kvs (dictGet (a :: l) "prompt_tokens")
          (dictGet (a :: l) "completion_tokens") (dictGet (a :: l) "total_tokens") with
        h | ⟨mkvs, hm, hne, h⟩
      · exact Or.inr (Or.inl ⟨a :: l, rfl, by simp, h⟩)
      · exact Or.inr (Or.inr ⟨mkvs, hm, hne, h⟩)

/-- C7: when both a truthy OpenAI-style `usage` object and a non-empty
Gemini-style `usageMetadata` object are present, all three counters come from
`usageMetadata` (the second probe overwrites the first); a counter found in
neither shape — including non-JSON input — is None, never zero. -/
theorem C7_usage_extraction :
    (∀ (kvs ukvs mkvs : List (String × JValue)),
      dictGetD kvs "usage" (JValue.obj []) = JValue.obj ukvs → ukvs ≠ [] →
      dictGetD kvs "usageMetadata" (JValue.obj []) = JValue.obj mkvs → mkvs ≠ [] →
      extract_tokens_from_response (some (JValue.obj kvs))
        = (dictGet mkvs "promptTokenCount", dictGet mkvs "candidatesTokenCount",
           dictGet mkvs "totalTokenCount")) ∧
    (∀ body? : Option JValue,
      (¬ tokenFound body? "usage" "prompt_tokens" →
        ¬ tokenFound body? "usageMetadata" "promptTokenCount" →
        (extract_tokens_from_response body?).1 = JValue.null) ∧
      (¬ tokenFound body? "usage" "completion_tokens" →
        ¬ tokenFound body? "usageMetadata" "candidatesTokenCount" →
        (extract_tokens_from_response body?).2.1 = JValue.null) ∧
      (¬ tokenFound body? "usage" "total_tokens" →
        ¬ tokenFound body? "usageMetadata" "totalTokenCount" →
        (extract_tokens_from_response body?).2.2 = JValue.null)) ∧
    extract_tokens_from_response none = (JValue.null, JValue.null, JValue.null) := by
  refine ⟨fun kvs ukvs mkvs hu _ hm hne =>
    extract_tokens_usageMetadata_wins kvs ukvs mkvs hu hm hne, ?_, rfl⟩
  intro body?
  cases body? with
  | none => exact ⟨fun _ _ => rfl, fun _ _ => rfl, fun _ _ => rfl⟩
  | some v =>
    cases v with
    | null => exact ⟨fun _ _ => rfl, fun _ _ => rfl, fun _ _ => rfl⟩
    | bool b => exact ⟨fun _ _ => rfl, fun _ _ => rfl, fun _ _ => rfl⟩
    | num n => exact ⟨fun _ _ => rfl, fun _ _ => rfl, fun _ _ => rfl⟩
    | str s => exact ⟨fun _ _ => rfl, fun _ _ => rfl, fun _ _ => rfl⟩
    | arr xs => exact ⟨fun _ _ => rfl, fun _ _ => rfl, fun _ _ => rfl⟩
    | obj kvs =>
      rcases extract_tokens_cases kvs with h | ⟨ukvs, hu, hne, h⟩ | ⟨mkvs, hm, hne, h⟩
      · exact ⟨fun _ _ => by rw [h], fun _ _ => by rw [h], fun _ _ => by rw [h]⟩
      · refine ⟨fun hnf _ => ?_, fun hnf _ => ?_, fun hnf _ => ?_⟩
        · rw [h]
          by_contra hc
          exact hnf ⟨kvs, ukvs, rfl, hu, hne, hc⟩
        · rw [h]
          by_contra hc
          exact hnf ⟨kvs, ukvs, rfl, hu, hne, hc⟩
        · rw [h]
          by_contra hc
          exact hnf ⟨kvs, ukvs, rfl, hu, hne, hc⟩
      · refine ⟨fun _ hnf => ?_, fun _ hnf => ?_, fun _ hnf => ?_⟩
        · rw [h]
          by_contra hc
          exact hnf ⟨kvs, mkvs, rfl, hm, hne, hc⟩
        · rw [h]
          by_contra hc
          exact hnf ⟨kvs, mkvs, rfl, hm, hne, hc⟩
        · rw [h]
          by_contra hc
          exact hnf ⟨kvs, mkvs, rfl, hm, hne, hc⟩

/-- C7 witness: both dialects present at once, and a non-JSON-object body. -/
theorem C7_usage_extraction_witness :
    extract_tokens_from_response (some (JValue.obj
        [("usage", JValue.obj [("prompt_tokens", JValue.num 1),
            ("completion_tokens", JValue.num 2), ("total_tokens", JValue.num 3)]),
         ("usageMetadata", JValue.obj [("promptTokenCount", JValue.num 10),
            ("candidatesTokenCount", JValue.num 20),
            ("totalTokenCount", JValue.num 30)])]))
      = (JValue.num 10, JValue.num 20, JValue.num 30) ∧
    (extract_tokens_from_response (some (JValue.str "plain text"))).1 = JValue.null := by
  constructor
  · have h := C7_usage_extraction.1
      [("usage", JValue.obj [("prompt_tokens", JValue.num 1),
          ("completion_tokens", JValue.num 2), ("total_tokens", JValue.num 3)]),
       ("usageMetadata", JValue.obj [("promptTokenCount", JValue.num 10),
          ("candidatesTokenCount", JValue.num 20),
          ("totalTokenCount", JValue.num 30)])]
      [("prompt_tokens", JValue.num 1), ("completion_tokens", JValue.num 2),
        ("total_tokens", JValue.num 3)]
      [("promptTokenCount", JValue.num 10), ("candidatesTokenCount", JValue.num 20),
        ("totalTokenCount", JValue.num 30)]
      rfl (by simp) rfl (by simp)
    exact h.trans rfl
  · exact (C7_usage_extraction.2.1 (some (JValue.str "plain text"))).1
      (by rintro ⟨kvs, okvs, hk, -, -, -⟩
          exact JValue.noConfusion (Option.some_injective _ hk))
      (by rintro ⟨kvs, okvs, hk, -, -, -⟩
          exact JValue.noConfusion (Option.some_injective _ hk))

/-- C10: usage precedence is per-object, not per-field: with a `usage` dict
and a non-empty `usageMetadata` dict both present, every counter is read from
`usageMetadata` alone, so a key missing there yields None for that counter
even when `usage` supplied the corresponding value. -/
theorem C10_per_object (kvs ukvs mkvs : List (String × JValue))
    (hu : dictGetD kvs "usage" (JValue.obj []) = JValue.obj ukvs)
    (hm : dictGetD kvs "usageMetadata" (JValue.obj []) = JValue.obj mkvs)
    (hne : mkvs ≠ []) :
    extract_tokens_from_response (some (JValue.obj kvs))
      = (dictGet mkvs "promptTokenCount", dictGet mkvs "candidatesTokenCount",
         dictGet mkvs "totalTokenCount") ∧
    (jlookup mkvs "promptTokenCount" = none →
      dictGet ukvs "prompt_tokens" ≠ JValue.null →
      (extract_tokens_from_response (some (JValue.obj kvs))).1 = JValue.null) := by
  have h := extract_tokens_usageMetadata_wins kvs ukvs mkvs hu hm hne
  refine ⟨h, fun hlk _ => ?_⟩
  rw [h]
  simp [dictGet, hlk]

/-- C10 witness: `usage` supplies `prompt_tokens` but `usageMetadata` lacks
`promptTokenCount`, so the prompt counter is None. -/
theorem C10_per_object_witness :
    (extract_tokens_from_response (some (JValue.obj
        [("usage", JValue.obj [("prompt_tokens", JValue.num 5)]),
         ("usageMetadata", JValue.obj [("candidatesTokenCount", JValue.num 2)])]))).1
      = JValue.null :=
  (C10_per_object
      [("usage", JValue.obj [("prompt_tokens", JValue.num 5)]),
       ("usageMetadata", JValue.obj [("candidatesTokenCount", JValue.num 2)])]
      [("prompt_tokens", JValue.num 5)] [("candidatesTokenCount", JValue.num 2)]
      rfl rfl (by simp)).2 rfl (by simp [dictGet, jlookup])

/-! ## C1: non-interference of persistence with the returned response -/

theorem dictInsert_of_notMem (d : List (List Char × List Char)) (k v : List Char)
    (h : ∀ p ∈ d, p.1 ≠ k) : dictInsert d k v = d ++ [(k, v)] := by
  unfold dictInsert
  rw [if_neg]
  intro hc
  obtain ⟨p, hp, hpk⟩ := List.any_eq_true.mp hc
  exact h p hp (by simpa using hpk)

theorem foldl_dictInsert_nodup (hs : List (List Char × List Char)) :
    ∀ acc : List (List Char × List Char), (hs.map Prod.fst).Nodup →
      (∀ kv ∈ hs, ∀ p ∈ acc, p.1 ≠ kv.1) →
      hs.foldl (fun d kv => dictInsert d kv.1 kv.2) acc = acc ++ hs := by
  induction hs with
  | nil =>
    intro acc _ _
    simp
  | cons kv t ih =>
    intro acc hnd hdisj
    rw [List.map_cons] at hnd
    have hnd' := List.nodup_cons.mp hnd
    have hdisj2 : ∀ kv' ∈ t, ∀ p ∈ acc ++ [(kv.1, kv.2)], p.1 ≠ kv'.1 := by
      intro kv' hkv' p hp
      rcases List.mem_append.mp hp with hpa | hpk
      · exact hdisj kv' (by simp [hkv']) p hpa
      · have hp1 : p = (kv.1, kv.2) := by simpa using hpk
        rw [hp1]
        intro heq
        apply hnd'.1
        have h1 : kv.1 = kv'.1 := heq
        rw [h1]
        exact List.mem_map_of_mem Prod.fst hkv'
    rw [List.foldl_cons, dictInsert_of_notMem _ _ _ (fun p hp => hdisj kv (by simp) p hp),
      ih (acc ++ [(kv.1, kv.2)]) hnd'.2 hdisj2]
    simp

theorem foldl_congr_mem {α β : Type} (f g : β → α → β) (l : List α) :
    ∀ b : β, (∀ a ∈ l, ∀ y : β, f y a = g y a) → l.foldl f b = l.foldl g b := by
  induction l with
  | nil =>
    intro b _
    rfl
  | cons a t ih =>
    intro b h
    rw [List.foldl_cons, List.foldl_cons, h a (by simp) b,
      ih (g b a) (fun x hx y => h x (by simp [hx]) y)]

theorem headersLookupFirst_of_nodup (l : List (List Char × List Char))
    (hnd : (l.map Prod.fst).Nodup) :
    ∀ kv ∈ l, headersLookupFirst l kv.1 = some kv.2 := by
  induction l with
  | nil =>
    intro kv hkv
    cases hkv
  | cons a t ih =>
    rw [List.map_cons] at hnd
    have hnd' := List.nodup_cons.mp hnd
    intro kv hkv
    rcases List.mem_cons.mp hkv with rfl | hkt
    · unfold headersLookupFirst
      rw [List.find?_cons_of_pos _ (by simp)]
      rfl
    · have hne : a.1 ≠ kv.1 := by
        intro heq
        apply hnd'.1
        rw [heq]
        exact List.mem_map_of_mem Prod.fst hkt
      unfold headersLookupFirst
      rw [List.find?_cons_of_neg _ (by simp [hne])]
      exact ih hnd'.2 kv hkt

theorem dictOfHeaders_eq_self (hs : List (List Char × List Char))
    (hnd : (hs.map Prod.fst).Nodup) : dictOfHeaders hs = hs := by
  unfold dictOfHeaders
  rw [foldl_congr_mem _ (fun d kv => dictInsert d kv.1 kv.2) hs []
    (fun kv hkv y => by rw [headersLookupFirst_of_nodup hs hnd kv hkv])]
  simpa using foldl_dictInsert_nodup hs [] hnd (by simp)

/-- C1 counterexample: on a monitored exchange the middleware rebuilds the
response with `dict(response.headers)`, so duplicate header names (two
`Set-Cookie` headers here) are collapsed — only the first survives — and the
returned headers are NOT identical to the wrapped handler's headers. -/
theorem C1_counterexample :
    should_monitor "/v1/chat".data = true ∧
    (dispatch (fun _ => none) (fun _ => []) (fun _ => Except.ok ())
        { method := "GET".data, path := "/v1/chat".data, headers := [],
          body_chars := [] } 0
        { status_code := 200,
          headers := [("set-cookie".data, "a=1".data), ("set-cookie".data, "b=2".data)],
          chunks := [], media_type := none }).1.headers
      ≠ [("set-cookie".data, "a=1".data), ("set-cookie".data, "b=2".data)] := by
  exact ⟨by decide, by decide⟩

/-- C1 (amended): on every monitored exchange, the response returned to the
caller has the handler's status code, media type, and exact body bytes (the
concatenated chunks), and its headers are the `dict(...)` image of the
handler's headers, which keeps the FIRST value of a duplicated header name
and drops later duplicates — so the headers are identical to the handler's
whenever no header name repeats.  All of this holds for EVERY persistence
outcome: the caller-visible response does not depend on the persistence
function, whose exceptions are caught and only logged. -/
theorem C1_amended (parse : List Char → Option JValue) (decode : List Nat → List Char)
    (persist persist2 : TelemetryRecord → Except (List Char) Unit)
    (req : RequestInfo) (latency : Nat) (resp : HandlerResponse)
    (hmon : should_monitor req.path = true) :
    (dispatch parse decode persist req latency resp).1
      = (dispatch parse decode persist2 req latency resp).1 ∧
    (dispatch parse decode persist req latency resp).1.status_code = resp.status_code ∧
    (dispatch parse decode persist req latency resp).1.body = resp.chunks.flatten ∧
    (dispatch parse decode persist req latency resp).1.media_type = resp.media_type ∧
    (dispatch parse decode persist req latency resp).1.headers
      = dictOfHeaders resp.headers ∧
    ((resp.headers.map Prod.fst).Nodup →
      (dispatch parse decode persist req latency resp).1.headers = resp.headers) := by
  have hd : ∀ ps : TelemetryRecord → Except (List Char) Unit,
      (dispatch parse decode ps req latency resp).1
        = { status_code := resp.status_code, headers := dictOfHeaders resp.headers,
            body := resp.chunks.flatten, media_type := resp.media_type } := by
    intro ps
    unfold dispatch
    rw [if_pos hmon]
  refine ⟨(hd persist).trans (hd persist2).symm, ?_, ?_, ?_, ?_, ?_⟩
  · rw [hd persist]
  · rw [hd persist]
  · rw [hd persist]
  · rw [hd persist]
  · rw [hd persist]
    intro hnd
    exact dictOfHeaders_eq_self _ hnd

/-- C1 witness: a failing persistence function yields the same caller-visible
response as a succeeding one on a concrete monitored exchange, and
duplicate-free headers come back unchanged. -/
theorem C1_amended_witness :
    (dispatch (fun _ => none) (fun _ => []) (fun _ => Except.ok ())
        { method := "POST".data, path := "/v1/chat".data, headers := [],
          body_chars := [] } 7
        { status_code := 200, headers := [("content-type".data, "text/plain".data)],
          chunks := [[104, 105]], media_type := none }).1
      = (dispatch (fun _ => none) (fun _ => [])
          (fun _ => Except.error "store down".data)
          { method := "POST".data, path := "/v1/chat".data, headers := [],
            body_chars := [] } 7
          { status_code := 200, headers := [("content-type".data, "text/plain".data)],
            chunks := [[104, 105]], media_type := none }).1 ∧
    (dispatch (fun _ => none) (fun _ => []) (fun _ => Except.ok ())
        { method := "POST".data, path := "/v1/chat".data, headers := [],
          body_chars := [] } 7
        { status_code := 200, headers := [("content-type".data, "text/plain".data)],
          chunks := [[104, 105]], media_type := none }).1.headers
      = [("content-type".data, "text/plain".data)] :=
  ⟨(C1_amended (fun _ => none) (fun _ => []) (fun _ => Except.ok ())
      (fun _ => Except.error "store down".data)
      { method := "POST".data, path := "/v1/chat".data, headers := [],
        body_chars := [] } 7
      { status_code := 200, headers := [("content-type".data, "text/plain".data)],
        chunks := [[104, 105]], media_type := none } (by decide)).1,
   (C1_amended (fun _ => none) (fun _ => []) (fun _ => Except.ok ())
      (fun _ => Except.ok ())
      { method := "POST".data, path := "/v1/chat".data, headers := [],
        body_chars := [] } 7
      { status_code := 200, headers := [("content-type".data, "text/plain".data)],
        chunks := [[104, 105]], media_type := none } (by decide)).2.2.2.2.2
     (by decide)⟩

/-! ## C2: credential extraction and redaction before storage -/

theorem processHeader_snd_of_not_credential
    (st : List (List Char × List Char) × Option (List Char))
    (kv : List Char × List Char) (hx : lowerKey kv.1 ≠ xapiKey)
    (ha : ¬ (lowerKey kv.1 = authKey ∧ startswith bearerPat kv.2 = true)) :
    (processHeader st kv).2 = st.2 := by
  unfold processHeader setsApiKey
  by_cases h1 : lowerKey kv.1 ∈ important_headers
  · rw [if_pos h1]
    by_cases h2 : lowerKey kv.1 = authKey ∨ lowerKey kv.1 = xapiKey
    · rw [if_pos h2]
      simp only []
      rw [if_neg ha, if_neg hx]
    · rw [if_neg h2]
  · rw [if_neg h1]

theorem foldl_processHeader_snd (post : List (List Char × List Char)) :
    ∀ st : List (List Char × List Char) × Option (List Char),
      (∀ kv ∈ post, lowerKey kv.1 ≠ xapiKey ∧
        ¬ (lowerKey kv.1 = authKey ∧ startswith bearerPat kv.2 = true)) →
      (post.foldl processHeader st).2 = st.2 := by
  induction post with
  | nil =>
    intro st _
    rfl
  | cons kv t ih =>
    intro st h
    rw [List.foldl_cons, ih (processHeader st kv) (fun x hx => h x (by simp [hx])),
      processHeader_snd_of_not_credential st kv (h kv (by simp)).1 (h kv (by simp)).2]

/-- C2 counterexample: a request carrying `Authorization: Bearer secrettoken1`
AND a later `x-api-key` header stores the redaction of the x-api-key value,
not the redaction of the Bearer token — the claim fails as universally
stated. -/
theorem C2_counterexample :
    (build_record (fun _ => none) (fun _ => [])
        { method := "GET".data, path := "/v1/chat".data,
          headers := [("authorization".data, "Bearer ".data ++ "secrettoken1".data),
                      ("x-api-key".data, "zzzzothersecret".data)],
          body_chars := [] } 0
        { status_code := 200, headers := [], chunks := [], media_type := none }).api_key
      = redact_api_key (some "zzzzothersecret".data) ∧
    redact_api_key (some "zzzzothersecret".data)
      ≠ redact_api_key (some "secrettoken1".data) := by
  exact ⟨by decide, by decide⟩

/-- C2 (amended): when a header whose lower-cased name is `authorization`
carries a value with the literal 7-character `Bearer ` marker, and no LATER
header is an `x-api-key` header or another Bearer `authorization` header,
then the extracted credential is exactly the substring after the marker and
the record's `apiKey` field is its redaction; and unconditionally, the
`apiKey` field handed to the store is always the output of `redact_api_key`
on the extracted credential, never the raw value. -/
theorem C2_amended :
    (∀ (k tok : List Char) (pre post : List (List Char × List Char)),
      lowerKey k = authKey →
      (∀ kv ∈ post, lowerKey kv.1 ≠ xapiKey ∧
        ¬ (lowerKey kv.1 = authKey ∧ startswith bearerPat kv.2 = true)) →
      (process_headers (pre ++ (k, bearerPat ++ tok) :: post)).2 = some tok) ∧
    (∀ (parse : List Char → Option JValue) (decode : List Nat → List Char)
        (req : RequestInfo) (latency : Nat) (resp : HandlerResponse),
      (build_record parse decode req latency resp).api_key
        = redact_api_key (process_headers req.headers).2) := by
  constructor
  · intro k tok pre post hk hpost
    unfold process_headers
    have hsplit : pre ++ (k, bearerPat ++ tok) :: post
        = (pre ++ [(k, bearerPat ++ tok)]) ++ post := by simp
    rw [hsplit, List.foldl_append, foldl_processHeader_snd post _ hpost,
      List.foldl_append]
    simp only [List.foldl_cons, List.foldl_nil]
    unfold processHeader setsApiKey
    simp only []
    rw [hk]
    rw [if_pos (by decide : authKey ∈ important_headers), if_pos (Or.inl rfl),
      if_pos ⟨rfl, startswith_append bearerPat tok⟩]
    have hdrop : (bearerPat ++ tok).drop 7 = tok := by
      have h7 : bearerPat.length = 7 := rfl
      rw [← h7, List.drop_left]
    rw [hdrop]
  · intro parse decode req latency resp
    rfl

/-- C2 witness: a mixed-case `Authorization` header among neutral headers
yields exactly the redacted token. -/
theorem C2_amended_witness :
    (process_headers
        [("user-agent".data, "curl".data),
         ("Authorization".data, bearerPat ++ "sk-abcdefghij".data),
         ("content-type".data, "application/json".data)]).2
      = some "sk-abcdefghij".data :=
  C2_amended.1 "Authorization".data "sk-abcdefghij".data
    [("user-agent".data, "curl".data)]
    [("content-type".data, "application/json".data)]
    (by decide) (by decide)

/-! ## C8: single deletion of a non-existent id -/

/-- C8: the claim expects not-found/404 for a missing id, but
`delete_ai_log_by_id` returns True without checking affected rows, so the
authenticated route answers 204 even though `get_ai_log_details` reports the
id as not found (here: id 1 on an empty store). -/
theorem C8_code_bug :
    get_ai_log_details [] 1 = none ∧
    delete_ai_log_api true true [] 1 = ([], 204) ∧
    (delete_ai_log_by_id true [] 1).2 = true :=
  ⟨rfl, rfl, rfl⟩

/-! ## C9: bulk deletion by id list -/

/-- C9: `delete_ai_logs_by_ids` reports the number of requested ids (not rows
removed), keeps exactly the rows whose id is not in the list (silently
ignoring unknown ids), leaves every listed id unfindable afterwards, and a
repeated call with the same list is a no-op returning the same count. -/
theorem C9_bulk_delete (db : AILogDB) (ids : List Nat) :
    (delete_ai_logs_by_ids db ids).2 = ids.length ∧
    (∀ r : Nat × TelemetryRecord,
      r ∈ (delete_ai_logs_by_ids db ids).1 ↔ r ∈ db ∧ r.1 ∉ ids) ∧
    (∀ i ∈ ids, get_ai_log_details (delete_ai_logs_by_ids db ids).1 i = none) ∧
    delete_ai_logs_by_ids (delete_ai_logs_by_ids db ids).1 ids
      = ((delete_ai_logs_by_ids db ids).1, ids.length) := by
  have hmem : ∀ r : Nat × TelemetryRecord,
      r ∈ (delete_ai_logs_by_ids db ids).1 ↔ r ∈ db ∧ r.1 ∉ ids := by
    intro r
    simp [delete_ai_logs_by_ids, List.mem_filter]
  refine ⟨rfl, hmem, ?_, ?_⟩
  · intro i hi
    unfold get_ai_log_details
    rw [List.find?_eq_none.mpr ?_]
    · rfl
    · intro r hr hbeq
      have hrnot : r.1 ∉ ids := ((hmem r).mp hr).2
      exact hrnot (by rwa [eq_of_beq hbeq])
  · unfold delete_ai_logs_by_ids
    have hself : (db.filter (fun r => r.1 ∉ ids)).filter (fun r => r.1 ∉ ids)
        = db.filter (fun r => r.1 ∉ ids) := by
      apply List.filter_eq_self.mpr
      intro a ha
      exact (List.mem_filter.mp ha).2
    rw [hself]

/-- C9 witness: deleting ids `[1, 1, 3]` from a two-row store reports 3,
leaves id 1 unfindable, keeps the unrelated row, and repeats idempotently. -/
theorem C9_bulk_delete_witness :
    (delete_ai_logs_by_ids [(1, sampleRecord), (2, sampleRecord)] [1, 1, 3]).2 = 3 ∧
    get_ai_log_details
        (delete_ai_logs_by_ids [(1, sampleRecord), (2, sampleRecord)] [1, 1, 3]).1 1
      = none ∧
    ((2, sampleRecord)
        ∈ (delete_ai_logs_by_ids [(1, sampleRecord), (2, sampleRecord)] [1, 1, 3]).1
      ↔ (2, sampleRecord) ∈ [(1, sampleRecord), (2, sampleRecord)] ∧ 2 ∉ [1, 1, 3]) ∧
    delete_ai_logs_by_ids
        (delete_ai_logs_by_ids [(1, sampleRecord), (2, sampleRecord)] [1, 1, 3]).1
        [1, 1, 3]
      = ((delete_ai_logs_by_ids [(1, sampleRecord), (2, sampleRecord)] [1, 1, 3]).1, 3) :=
  ⟨(C9_bulk_delete [(1, sampleRecord), (2, sampleRecord)] [1, 1, 3]).1,
   (C9_bulk_delete [(1, sampleRecord), (2, sampleRecord)] [1, 1, 3]).2.2.1 1 (by decide),
   (C9_bulk_delete [(1, sampleRecord), (2, sampleRecord)] [1, 1, 3]).2.1 (2, sampleRecord),
   (C9_bulk_delete [(1, sampleRecord), (2, sampleRecord)] [1, 1, 3]).2.2.2⟩
